import Mathlib

/-!
# Verification of the analytical data-acquisition core

Shallow embedding of the continuous-acquisition engine of the
Analytical-Data-Acquisition repository, together with proofs of the
testable properties stated in its design document.

The embedding follows the Python source files:
* `DataAcquisition.py` (burst-capture variant, `mainLoop` / `_write_file`),
* `USB1608FS/DataAcquisition.py` (threaded engine: `start` / `stop` /
  `_worker` / `getSignalData` / `recordData` / `writeData`),
* `USB1608FS/Valves.py` (`_set_valve` / `set_valve_position_a` /
  `set_valve_position_b`),
* `USB1408FS/Display.py` (`startRecording` / `stopRecording` /
  `_get_valve_schedule`) and `USB1408FS/Settings.py` (`Settings.validate`).

Machine floats are modelled as rationals; wall-clock instants and
timestamps are rationals as well (seconds).
-/

set_option autoImplicit false

namespace ADA

/-- A sample: `(timestamp in seconds, value in volts)`. -/
abbrev Sample := ℚ × ℚ

/-! ## Ring-buffer reconstruction (RingCapture / RunRecorder)

The design document §4.2 specifies the reconstruction executed once at
stop.  No source variant in the current snapshot contains the wrapped
branch (the only on-hardware capture, `DataAcquisition.mainLoop`, runs a
bounded non-continuous scan and reads the buffer contiguously), so the
algorithm is modelled from the specification and then related to the
contiguous read-out that `mainLoop` does perform. -/

/-- Modelled from the spec: the §4.2 stop-time reconstruction of the
hardware ring buffer, which is absent from the source snapshot (the
snapshot's `mainLoop` only performs the unwrapped contiguous read).
`capacity` is the buffer capacity, `cur_count` the total number of raw
samples ever produced, `cur_index` the most recent write position,
`eng` the raw-code → volts conversion and `raw` the buffer contents.
Steps: `n = min cur_count capacity`; if `cur_count < capacity` read
contiguously from index 0, else read from `first = (cur_index+1) % capacity`
onwards modulo `capacity`; timestamp of sample `i` is `i / rateHz`. -/
def reconstruct (capacity : ℕ) (rateHz : ℚ) (cur_count cur_index : ℕ)
    (eng : ℕ → ℚ) (raw : ℕ → ℕ) : List Sample :=
  let n := min cur_count capacity
  if cur_count < capacity then
    (List.range n).map (fun i : ℕ => ((i : ℚ) / rateHz, eng (raw i)))
  else
    let first := (cur_index + 1) % capacity
    (List.range n).map (fun i : ℕ => ((i : ℚ) / rateHz, eng (raw ((first + i) % capacity))))

/-- `DataAcquisition.mainLoop` (burst-capture variant), read-out phase:
after the hardware-paced scan has filled the buffer with
`samples_per_channel` codes, sample `i` is read from buffer index `i`,
converted to engineering units, and timestamped `i / sample_rate`. -/
def mainLoopCapture (samples_per_channel : ℕ) (sample_rate : ℚ)
    (eng : ℕ → ℚ) (buf : ℕ → ℕ) : List Sample :=
  (List.range samples_per_channel).map (fun i : ℕ => ((i : ℚ) / sample_rate, eng (buf i)))

/-- Claim C1: for `k < C` the reconstruction yields samples `0..k-1`
contiguously from index 0 with timestamps `i/rate`; for `k ≥ C` it yields
exactly `C` samples, sample `i` read from `(cur_index+1+i) % C`, with
timestamps `0, 1/rate, …, (C-1)/rate`. -/
theorem reconstruct_yields_chronological_record
    (C : ℕ) (hC : 0 < C) (rateHz : ℚ) (k cur_index : ℕ)
    (eng : ℕ → ℚ) (raw : ℕ → ℕ) :
    (k < C →
      (reconstruct C rateHz k cur_index eng raw).length = k ∧
      ∀ i, i < k →
        (reconstruct C rateHz k cur_index eng raw)[i]? =
          some ((i : ℚ) / rateHz, eng (raw i))) ∧
    (C ≤ k →
      (reconstruct C rateHz k cur_index eng raw).length = C ∧
      ∀ i, i < C →
        (reconstruct C rateHz k cur_index eng raw)[i]? =
          some ((i : ℚ) / rateHz, eng (raw ((cur_index + 1 + i) % C)))) := by
  constructor
  · intro hk
    unfold reconstruct
    simp only [if_pos hk, List.length_map, List.length_range,
      Nat.min_eq_left (Nat.le_of_lt hk)]
    refine ⟨trivial, ?_⟩
    intro i hi
    rw [List.getElem?_map, List.getElem?_range hi]
    rfl
  · intro hk
    unfold reconstruct
    have hnot : ¬ k < C := Nat.not_lt.mpr hk
    simp only [if_neg hnot, List.length_map, List.length_range,
      Nat.min_eq_right hk]
    refine ⟨trivial, ?_⟩
    intro i hi
    rw [List.getElem?_map, List.getElem?_range hi]
    have h2 : ((cur_index + 1) % C + i) % C = (cur_index + 1 + i) % C :=
      Nat.mod_add_mod (cur_index + 1) C i
    simp only [Option.map_some']
    rw [h2]

/-- Witness for C1 at `C = 3`, `rate = 2`, `k = 5`, `cur_index = 1`. -/
theorem reconstruct_yields_chronological_record_witness :
    0 < 3 ∧
    ((5 < 3 →
      (reconstruct 3 2 5 1 (fun c => (c : ℚ)) (fun i => i + 10)).length = 5 ∧
      ∀ i : ℕ, i < 5 →
        (reconstruct 3 2 5 1 (fun c => (c : ℚ)) (fun i => i + 10))[i]? =
          some ((i : ℚ) / 2, ((i + 10 : ℕ) : ℚ))) ∧
    (3 ≤ 5 →
      (reconstruct 3 2 5 1 (fun c => (c : ℚ)) (fun i => i + 10)).length = 3 ∧
      ∀ i : ℕ, i < 3 →
        (reconstruct 3 2 5 1 (fun c => (c : ℚ)) (fun i => i + 10))[i]? =
          some ((i : ℚ) / 2, (((1 + 1 + i) % 3 + 10 : ℕ) : ℚ)))) :=
  ⟨by decide,
   reconstruct_yields_chronological_record 3 (by decide) 2 5 1 (fun c => (c : ℚ)) (fun i => i + 10)⟩

/-- The contiguous read-out of `mainLoop` agrees with the spec-modelled
reconstruction in the only case the burst variant produces: the scan
stops after exactly `N` samples (`cur_count = N`, `cur_index = N - 1`),
so the earliest retained sample is raw index `0`. -/
theorem mainLoopCapture_eq_reconstruct
    (N : ℕ) (hN : 0 < N) (rateHz : ℚ) (eng : ℕ → ℚ) (buf : ℕ → ℕ) :
    mainLoopCapture N rateHz eng buf = reconstruct N rateHz N (N - 1) eng buf := by
  unfold mainLoopCapture reconstruct
  have h1 : ¬ N < N := lt_irrefl N
  simp only [if_neg h1, Nat.min_self]
  apply List.map_congr_left
  intro i hi
  rw [List.mem_range] at hi
  have hfirst : (N - 1 + 1) % N = 0 := by
    rw [Nat.sub_add_cancel hN, Nat.mod_self]
  rw [hfirst, Nat.zero_add, Nat.mod_eq_of_lt hi]

/-! ## The threaded engine: sampling loop (`USB1608FS/DataAcquisition.py`)

`_worker` runs in a background thread: each iteration reads one
block-mean value via `getSignalData`; on `None` it skips the tick and
keeps looping; otherwise it appends `(epoch1904, volts)` to the
authoritative record `self.data` and pushes `(t_rel, volts)` into the
bounded GUI queue, dropping the oldest queued item when the queue is
full. -/

/-- A vendor-SDK error (`mcculw.ul.ULError`). -/
structure ULError where
  errorcode : ℤ
  message : String

/-- `getSignalData`: without hardware, returns the simulated value; with
hardware, a successful block scan yields the arithmetic mean of the raw
codes truncated to an integer (`int(np.mean(...))`) converted to volts,
and a `ULError` is caught and turned into `none`. -/
def getSignalData (hardware_available : Bool) (eng : ℕ → ℚ)
    (scan : Except ULError (List ℕ)) (simulated : ℚ) : Option ℚ :=
  if hardware_available = false then
    some simulated
  else
    match scan with
    | .ok buf => some (eng (Int.toNat ⌊(buf.map (fun c : ℕ => (c : ℚ))).sum / (buf.length : ℚ)⌋))
    | .error _ => none

/-- One successful reading produced by the worker loop: the relative
timestamp pushed to the GUI queue, the epoch-1904 timestamp appended to
the record, and the measured volts. -/
structure Reading where
  t_rel : ℚ
  epoch1904 : ℚ
  volts : ℚ
deriving DecidableEq

/-- The live-delivery channel state. `queue.Queue(maxsize)` with the
producer-side policy of `_worker`: `put_nowait`, and on `queue.Full`
`get_nowait()` (discard the oldest) followed by `put_nowait`. The list
head is the oldest queued item. -/
def queuePut (maxsize : ℕ) (q : List Sample) (item : Sample) : List Sample :=
  if q.length < maxsize then q ++ [item] else q.drop 1 ++ [item]

/-- In-memory state touched by the worker loop: the authoritative record
`self.data` and the bounded live-delivery queue. -/
structure WorkerState where
  data : List Sample
  liveQueue : List Sample
deriving DecidableEq

/-- One iteration of `_worker`: a `none` reading (failed scan) skips the
tick entirely; a successful reading is appended to the record
(`recordData`) and pushed to the GUI queue under drop-oldest. -/
def workerTick (maxsize : ℕ) (s : WorkerState) (r : Option Reading) : WorkerState :=
  match r with
  | none => s
  | some r =>
    { data := s.data ++ [(r.epoch1904, r.volts)]
      liveQueue := queuePut maxsize s.liveQueue (r.t_rel, r.volts) }

/-- The worker loop run over a finite trace of read results. -/
def workerRun (maxsize : ℕ) (s : WorkerState) (rs : List (Option Reading)) : WorkerState :=
  rs.foldl (workerTick maxsize) s

/-- Folding drop-oldest pushes over a queue keeps exactly the most
recent `M` items, in order. -/
theorem foldl_queuePut (M : ℕ) (hM : 0 < M) :
    ∀ (xs : List Sample) (q : List Sample), q.length ≤ M →
      xs.foldl (queuePut M) q = (q ++ xs).drop (q.length + xs.length - M) := by
  intro xs
  induction xs with
  | nil =>
    intro q hq
    simp [Nat.sub_eq_zero_of_le hq]
  | cons x xs ih =>
    intro q hq
    rw [List.foldl_cons]
    by_cases hlt : q.length < M
    · rw [ih (queuePut M q x) (by simp [queuePut, if_pos hlt, List.length_nil]; omega)]
      simp only [queuePut, if_pos hlt, List.length_append, List.length_cons,
        List.length_singleton, List.length_nil, List.append_assoc, List.singleton_append]
      congr 1
      omega
    · have hqM : q.length = M := le_antisymm hq (Nat.not_lt.mp hlt)
      have hq1 : 1 ≤ q.length := by omega
      rw [ih (queuePut M q x)
        (by simp [queuePut, if_neg hlt, List.length_drop, List.length_nil]; omega)]
      simp only [queuePut, if_neg hlt, List.length_append, List.length_drop,
        List.length_singleton, List.length_cons, List.length_nil]
      rw [List.append_assoc, List.singleton_append,
        ← List.drop_append_of_le_length hq1, List.drop_drop]
      congr 1
      omega

/-- The worker over a trace of all-successful readings: the record gets
every `(epoch1904, volts)` pair appended in order, and the queue is the
fold of drop-oldest pushes of the `(t_rel, volts)` pairs. -/
theorem workerRun_all_ok (M : ℕ) :
    ∀ (rs : List Reading) (s : WorkerState),
      workerRun M s (rs.map some) =
        { data := s.data ++ rs.map (fun r => (r.epoch1904, r.volts))
          liveQueue := (rs.map (fun r => (r.t_rel, r.volts))).foldl (queuePut M) s.liveQueue } := by
  intro rs
  induction rs with
  | nil => intro s; simp [workerRun]
  | cons r rs ih =>
    intro s
    simp only [List.map_cons, workerRun, List.foldl_cons]
    have h := ih ⟨s.data ++ [(r.epoch1904, r.volts)], queuePut M s.liveQueue (r.t_rel, r.volts)⟩
    rw [workerRun] at h
    rw [show workerTick M s (some r) =
      (⟨s.data ++ [(r.epoch1904, r.volts)], queuePut M s.liveQueue (r.t_rel, r.volts)⟩ : WorkerState) from rfl]
    rw [h]
    simp

/-- Claim C2: with live-channel capacity `M`, producing `M + 5` samples
before any consumer drain leaves the channel holding exactly the most
recent `M` samples in acquisition order, while the authoritative record
holds all `M + 5` samples in acquisition order. -/
theorem backpressure_drops_oldest_record_complete
    (M : ℕ) (hM : 0 < M) (readings : List Reading)
    (hlen : readings.length = M + 5) :
    (workerRun M ⟨[], []⟩ (readings.map some)).data
        = readings.map (fun r => (r.epoch1904, r.volts)) ∧
    (workerRun M ⟨[], []⟩ (readings.map some)).liveQueue
        = (readings.map (fun r => (r.t_rel, r.volts))).drop 5 := by
  rw [workerRun_all_ok]
  refine ⟨by simp, ?_⟩
  simp only
  rw [foldl_queuePut M hM _ [] (by simp)]
  simp [hlen]

/-- Witness for C2 at `M = 2` with seven concrete readings. -/
theorem backpressure_drops_oldest_record_complete_witness :
    0 < 2 ∧
    ([⟨1, 101, 5⟩, ⟨2, 102, 6⟩, ⟨3, 103, 7⟩, ⟨4, 104, 8⟩, ⟨5, 105, 9⟩,
      ⟨6, 106, 10⟩, ⟨7, 107, 11⟩] : List Reading).length = 2 + 5 ∧
    ((workerRun 2 ⟨[], []⟩ (([⟨1, 101, 5⟩, ⟨2, 102, 6⟩, ⟨3, 103, 7⟩, ⟨4, 104, 8⟩,
          ⟨5, 105, 9⟩, ⟨6, 106, 10⟩, ⟨7, 107, 11⟩] : List Reading).map some)).data
        = ([⟨1, 101, 5⟩, ⟨2, 102, 6⟩, ⟨3, 103, 7⟩, ⟨4, 104, 8⟩, ⟨5, 105, 9⟩,
          ⟨6, 106, 10⟩, ⟨7, 107, 11⟩] : List Reading).map (fun r => (r.epoch1904, r.volts)) ∧
     (workerRun 2 ⟨[], []⟩ (([⟨1, 101, 5⟩, ⟨2, 102, 6⟩, ⟨3, 103, 7⟩, ⟨4, 104, 8⟩,
          ⟨5, 105, 9⟩, ⟨6, 106, 10⟩, ⟨7, 107, 11⟩] : List Reading).map some)).liveQueue
        = (([⟨1, 101, 5⟩, ⟨2, 102, 6⟩, ⟨3, 103, 7⟩, ⟨4, 104, 8⟩, ⟨5, 105, 9⟩,
          ⟨6, 106, 10⟩, ⟨7, 107, 11⟩] : List Reading).map (fun r => (r.t_rel, r.volts))).drop 5) :=
  ⟨by decide, by decide,
   backpressure_drops_oldest_record_complete 2 (by decide) _ (by decide)⟩

/-- Claim C9: a failed hardware read surfaces as `none` (never as an
uncaught exception), the tick is skipped — nothing is recorded and
nothing is pushed — and the loop goes on with the remaining ticks
exactly as if the failed tick had not happened. -/
theorem read_failure_skips_tick_and_loop_continues
    (e : ULError) (eng : ℕ → ℚ) (simulated : ℚ) :
    getSignalData true eng (.error e) simulated = none ∧
    (∀ (M : ℕ) (s : WorkerState), workerTick M s none = s) ∧
    (∀ (M : ℕ) (s : WorkerState) (rest : List (Option Reading)),
      workerRun M s (none :: rest) = workerRun M s rest) := by
  refine ⟨rfl, fun M s => rfl, fun M s rest => ?_⟩
  rw [workerRun, List.foldl_cons]
  rfl

/-! ## The threaded engine: lifecycle and persistence

`USB1608FS/DataAcquisition.py`: `start` launches the worker thread
unless one is already alive; `stop` clears the running flag, joins the
thread, auto-saves via `writeData(self.data)` and then clears
`self.data`; `writeData` returns early when the data or the filename is
missing, and otherwise opens the file for writing — an `OSError` from
`open` propagates to the caller of `stop`, in which case the line
`self.data = []` is never executed. -/

/-- A file produced on disk: its name and its rows. -/
structure RunFile where
  name : String
  rows : List Sample
deriving DecidableEq

/-- Engine state: the running flag/worker thread, the authoritative
record `self.data`, the target filename, and the files on disk. -/
structure Engine where
  running : Bool
  data : List Sample
  filename : Option String
  files : List RunFile
deriving DecidableEq

/-- `DataAcquisition.start`: a no-op when the worker thread is alive;
otherwise sets the running event and launches the worker. -/
def start (s : Engine) : Engine :=
  if s.running then s else { s with running := true }

/-- `DataAcquisition.set_filename`. -/
def set_filename (s : Engine) (fn : String) : Engine :=
  { s with filename := some fn }

/-- `DataAcquisition.recordData`, called by the worker on each
successful tick while running. -/
def recordData (s : Engine) (epoch1904 volts : ℚ) : Engine :=
  { s with data := s.data ++ [(epoch1904, volts)] }

/-- `DataAcquisition.writeData(data)`: `if not data or not self.filename:
return` — no file is created; otherwise the rows are written to
`self.filename`, and a failing `open` raises to the caller
(`canWrite = false` models the OS refusing the write). -/
def writeData (rows : List Sample) (fn : Option String) (canWrite : Bool)
    (files : List RunFile) : Except String (List RunFile) :=
  if rows = [] then .ok files
  else
    match fn with
    | none => .ok files
    | some name =>
      if canWrite then .ok (files ++ [⟨name, rows⟩]) else .error "cannot open file"

/-- `DataAcquisition.stop`: clears the running event, joins the worker,
then `self.writeData(self.data)` followed by `self.data = []`. When
`writeData` raises, the exception propagates to the caller (second
component `true`) and the clearing line never executes, so the record is
retained. -/
def stop (canWrite : Bool) (s : Engine) : Engine × Bool :=
  let s1 : Engine := { s with running := false }
  match writeData s1.data s1.filename canWrite s1.files with
  | .ok files2 => ({ s1 with data := [], files := files2 }, false)
  | .error _ => (s1, true)

/-- States of the engine reachable through its public control surface:
records happen only while the worker runs. -/
inductive Reachable : Engine → Prop
  | init : Reachable ⟨false, [], none, []⟩
  | set_filename {s : Engine} (fn : String) :
      Reachable s → Reachable (set_filename s fn)
  | start {s : Engine} : Reachable s → Reachable (start s)
  | record {s : Engine} (epoch1904 volts : ℚ) :
      Reachable s → s.running = true → Reachable (recordData s epoch1904 volts)
  | stop {s : Engine} (canWrite : Bool) :
      Reachable s → Reachable (stop canWrite s).1

/-- Counterexample to claim C3 as stated: an Idle engine left holding an
unflushed record by a failed auto-save is reachable, and calling `stop()`
on it is not a no-op — it writes the run file and clears the record. -/
theorem stop_on_idle_engine_not_always_noop :
    Reachable (⟨false, [(0, 1)], some "run", []⟩ : Engine) ∧
    (⟨false, [(0, 1)], some "run", []⟩ : Engine).running = false ∧
    (stop true ⟨false, [(0, 1)], some "run", []⟩).1.files ≠
      (⟨false, [(0, 1)], some "run", []⟩ : Engine).files ∧
    (stop true ⟨false, [(0, 1)], some "run", []⟩).1.data ≠
      (⟨false, [(0, 1)], some "run", []⟩ : Engine).data := by
  refine ⟨?_, rfl, by decide, by decide⟩
  have h :
      (stop false (recordData (start (set_filename ⟨false, [], none, []⟩ "run")) 0 1)).1 =
        (⟨false, [(0, 1)], some "run", []⟩ : Engine) := by decide
  rw [← h]
  exact Reachable.stop false
    (Reachable.record 0 1 (Reachable.start (Reachable.set_filename "run" Reachable.init)) rfl)

/-- Claim C3 as amended: `stop()` on an Idle engine whose record has
been flushed (the normal Idle state) is a no-op — same state, no file,
no exception — and `start()` on a Running engine is a no-op. -/
theorem stop_idle_flushed_noop_and_start_running_noop
    (canWrite : Bool) (s t : Engine)
    (hs_idle : s.running = false) (hs_flushed : s.data = [])
    (ht : t.running = true) :
    stop canWrite s = (s, false) ∧ start t = t := by
  obtain ⟨r, d, fn, fl⟩ := s
  obtain ⟨r2, d2, fn2, fl2⟩ := t
  simp only at hs_idle hs_flushed ht
  subst hs_idle hs_flushed ht
  constructor
  · simp [stop, writeData]
  · simp [start]

/-- Witness for C3 (amended). -/
theorem stop_idle_flushed_noop_and_start_running_noop_witness :
    (⟨false, [], some "run", []⟩ : Engine).running = false ∧
    (⟨false, [], some "run", []⟩ : Engine).data = [] ∧
    (⟨true, [(0, 2)], some "run", []⟩ : Engine).running = true ∧
    (stop false ⟨false, [], some "run", []⟩ = (⟨false, [], some "run", []⟩, false) ∧
     start ⟨true, [(0, 2)], some "run", []⟩ = ⟨true, [(0, 2)], some "run", []⟩) :=
  ⟨rfl, rfl, rfl,
   stop_idle_flushed_noop_and_start_running_noop false
     ⟨false, [], some "run", []⟩ ⟨true, [(0, 2)], some "run", []⟩ rfl rfl rfl⟩

/-- `Display.writeDataToFile` (display.py): `if not self.xData: return`
— with zero collected samples nothing is captured and no file is
created; otherwise it triggers the DAQ's write path, which (via a fresh
burst capture) persists `mainLoopCapture` under the current filename. -/
def writeDataToFile (xData yData : List ℚ) (N : ℕ) (rate : ℚ)
    (eng : ℕ → ℚ) (buf : ℕ → ℕ) (fname : String) (files : List RunFile) : List RunFile :=
  if xData = [] then files
  else files ++ [⟨fname, mainLoopCapture N rate eng buf⟩]

/-- Claim C5: finalizing a run with zero collected samples creates no
file and returns the no-op path (no exception), in both write-on-stop
variants: the engine's `writeData` and the GUI's `writeDataToFile`. -/
theorem finalize_empty_run_is_noop
    (fn : Option String) (canWrite : Bool) (files : List RunFile)
    (yData : List ℚ) (N : ℕ) (rate : ℚ) (eng : ℕ → ℚ) (buf : ℕ → ℕ) (fname : String) :
    writeData [] fn canWrite files = .ok files ∧
    writeDataToFile [] yData N rate eng buf fname files = files := by
  exact ⟨rfl, rfl⟩

/-- Claim C7: when the run file cannot be written, `stop` reports the
failure to its caller (the exception propagates), the in-memory record
is retained unchanged and no file is produced; a later retry (a second
`stop` once writing succeeds) persists exactly the retained record. -/
theorem write_failure_reported_and_record_retained
    (s : Engine) (fn : String)
    (hdata : s.data ≠ []) (hfn : s.filename = some fn) :
    (stop false s).2 = true ∧
    (stop false s).1.data = s.data ∧
    (stop false s).1.files = s.files ∧
    (stop true (stop false s).1).1.files = s.files ++ [⟨fn, s.data⟩] := by
  obtain ⟨r, d, fn', fl⟩ := s
  simp only at hdata hfn
  subst hfn
  simp [stop, writeData, hdata]

/-- Witness for C7. -/
theorem write_failure_reported_and_record_retained_witness :
    (⟨true, [(0, 5)], some "run", []⟩ : Engine).data ≠ [] ∧
    (⟨true, [(0, 5)], some "run", []⟩ : Engine).filename = some "run" ∧
    ((stop false ⟨true, [(0, 5)], some "run", []⟩).2 = true ∧
     (stop false ⟨true, [(0, 5)], some "run", []⟩).1.data =
       (⟨true, [(0, 5)], some "run", []⟩ : Engine).data ∧
     (stop false ⟨true, [(0, 5)], some "run", []⟩).1.files =
       (⟨true, [(0, 5)], some "run", []⟩ : Engine).files ∧
     (stop true (stop false ⟨true, [(0, 5)], some "run", []⟩).1).1.files =
       (⟨true, [(0, 5)], some "run", []⟩ : Engine).files ++ [⟨"run", [(0, 5)]⟩]) :=
  ⟨by decide, rfl,
   write_failure_reported_and_record_retained ⟨true, [(0, 5)], some "run", []⟩ "run"
     (by decide) rfl⟩

/-! ## GUI control layer and valve scheduling (`USB1408FS/Display.py`)

`startRecording` sets the valve selected by the *Initial Valve* radio
buttons, then arms one `root.after` timer per schedule entry whose
offset satisfies `0 < t < maxDuration`; entries with `t <= 0` (and
entries at or past the effective duration) are silently not scheduled.
`stopRecording` cancels every armed timer.  `_get_valve_schedule`
reports invalid rows through an error dialog, skips them, and returns
the remaining entries sorted by time. -/

/-- One row of the valve-swap table: the parsed time (`none` when the
entry text is not a number) and the valve combo text. -/
structure SwapRow where
  time : Option ℚ
  valve : String
deriving DecidableEq

/-- One iteration of the loop in `Display._get_valve_schedule`: a parse
failure or an invalid `(time, valve)` appends an error message, a valid
row appends the entry. -/
def scheduleStep (acc : List (ℚ × String) × List String) (row : SwapRow) :
    List (ℚ × String) × List String :=
  match row.time with
  | none => (acc.1, acc.2 ++ ["Time must be a number"])
  | some t =>
    if 0 ≤ t ∧ (row.valve = "A" ∨ row.valve = "B") then
      (acc.1 ++ [(t, row.valve)], acc.2)
    else
      (acc.1, acc.2 ++ ["Invalid valve schedule"])

/-- `Display._get_valve_schedule`: validate each row, then return the
valid entries sorted (stably) by time, together with the error messages
shown to the operator. -/
def getValveSchedule (rows : List SwapRow) : List (ℚ × String) × List String :=
  let r := rows.foldl scheduleStep ([], [])
  (r.1.insertionSort (fun a b => a.1 ≤ b.1), r.2)

/-- `Settings.effective_run_duration`: run duration minus the 5 s buffer,
clamped at zero. -/
def effective_run_duration (run_duration : ℚ) : ℚ :=
  max 0 (run_duration - 5)

/-- The run/valve state of the `Display` controller. `swapJobs` is the
set of pending `root.after` timers as `(offset seconds, target valve)`. -/
structure DisplayState where
  recording : Bool
  currentValve : String
  swapJobs : List (ℚ × String)
  maxDuration : ℚ
deriving DecidableEq

/-- `Display.startRecording`: a no-op while recording.  Otherwise it
takes the effective duration, reads the schedule from the UI, sets the
valve selected by the *Initial Valve* radio buttons, arms one timer per
entry with `0 < t < maxDuration`, and starts the run.  Returns the new
state and the error messages raised while reading the schedule. -/
def startRecording (st : DisplayState) (initialValve : String)
    (rows : List SwapRow) (run_duration : ℚ) : DisplayState × List String :=
  if st.recording then (st, [])
  else
    let maxD := effective_run_duration run_duration
    let r := getValveSchedule rows
    ({ recording := true
       currentValve := initialValve
       swapJobs := r.1.filter (fun e => decide (0 < e.1) && decide (e.1 < maxD))
       maxDuration := maxD }, r.2)

/-- `Display.stopRecording`: a no-op when not recording; otherwise stops
the run and cancels every pending swap timer (`after_cancel` on each
job id). -/
def stopRecording (st : DisplayState) : DisplayState :=
  if st.recording then { st with recording := false, swapJobs := [] } else st

/-- Delay in milliseconds handed to `root.after`: `int(swap_time * 1000)`
(truncation; armed offsets are positive, so this is the floor). -/
def msDelay (t : ℚ) : ℤ :=
  ⌊t * 1000⌋

/-- The valve position at elapsed time `τ` seconds after arming, with no
cancellation: armed timers fire in schedule order once their millisecond
delay has elapsed, each setting the valve to its target. -/
def valveAt (initialValve : String) (jobs : List (ℚ × String)) (τ : ℚ) : String :=
  jobs.foldl (fun v e => if (msDelay e.1 : ℚ) ≤ 1000 * τ then e.2 else v) initialValve

/-- Error messages produced by `_get_valve_schedule` only accumulate. -/
theorem foldl_scheduleStep_errors (rows : List SwapRow)
    (acc : List (ℚ × String) × List String) :
    ∃ suf, (rows.foldl scheduleStep acc).2 = acc.2 ++ suf := by
  induction rows generalizing acc with
  | nil => exact ⟨[], by simp⟩
  | cons row rows ih =>
    obtain ⟨suf, hsuf⟩ := ih (scheduleStep acc row)
    rw [List.foldl_cons, hsuf]
    unfold scheduleStep
    match h : row.time with
    | none => exact ⟨"Time must be a number" :: suf, by simp⟩
    | some t =>
      by_cases hc : 0 ≤ t ∧ (row.valve = "A" ∨ row.valve = "B")
      · exact ⟨suf, by simp [hc]⟩
      · exact ⟨"Invalid valve schedule" :: suf, by simp [hc]⟩

/-- Every entry accepted by `_get_valve_schedule` has a non-negative
offset. -/
theorem foldl_scheduleStep_nonneg (rows : List SwapRow)
    (acc : List (ℚ × String) × List String)
    (hacc : ∀ e ∈ acc.1, 0 ≤ e.1) :
    ∀ e ∈ (rows.foldl scheduleStep acc).1, 0 ≤ e.1 := by
  induction rows generalizing acc with
  | nil => simpa using hacc
  | cons row rows ih =>
    rw [List.foldl_cons]
    refine ih (scheduleStep acc row) ?_
    intro e he
    obtain ⟨rt, rv⟩ := row
    cases rt with
    | none => exact hacc e he
    | some t =>
      by_cases hc : 0 ≤ t ∧ (rv = "A" ∨ rv = "B")
      · simp only [scheduleStep, if_pos hc, List.mem_append, List.mem_singleton] at he
        rcases he with he | he
        · exact hacc e he
        · rw [he]; exact hc.1
      · simp only [scheduleStep, if_neg hc] at he
        exact hacc e he

/-- A row whose time parses negative always leaves an error message. -/
theorem getValveSchedule_errors_of_neg (rows : List SwapRow) (t : ℚ) (v : String)
    (hrow : (⟨some t, v⟩ : SwapRow) ∈ rows) (ht : t < 0) :
    (getValveSchedule rows).2 ≠ [] := by
  obtain ⟨l1, l2, hsplit⟩ := List.append_of_mem hrow
  subst hsplit
  unfold getValveSchedule
  simp only
  rw [List.foldl_append, List.foldl_cons]
  obtain ⟨suf, hsuf⟩ := foldl_scheduleStep_errors l2
    (scheduleStep (l1.foldl scheduleStep ([], [])) ⟨some t, v⟩)
  rw [hsuf]
  have hc : ¬ (0 ≤ t ∧ (v = "A" ∨ v = "B")) := fun h => absurd h.1 (not_le.mpr ht)
  unfold scheduleStep
  simp [hc]

/-- Every entry of the sorted schedule has a non-negative offset. -/
theorem getValveSchedule_nonneg (rows : List SwapRow) :
    ∀ e ∈ (getValveSchedule rows).1, 0 ≤ e.1 := by
  intro e he
  unfold getValveSchedule at he
  simp only at he
  have hperm := List.perm_insertionSort
    (fun a b : ℚ × String => a.1 ≤ b.1) (rows.foldl scheduleStep ([], [])).1
  exact foldl_scheduleStep_nonneg rows ([], []) (by simp) e (hperm.mem_iff.mp he)

/-- Every armed swap timer has an offset strictly between `0` and the
effective run duration. -/
theorem swapJobs_bounds (st : DisplayState) (initialValve : String)
    (rows : List SwapRow) (run_duration : ℚ)
    (h : st.recording = false) :
    ∀ e ∈ (startRecording st initialValve rows run_duration).1.swapJobs,
      0 < e.1 ∧ e.1 < effective_run_duration run_duration := by
  intro e he
  unfold startRecording at he
  rw [h] at he
  simp only [Bool.false_eq_true, if_false, List.mem_filter, Bool.and_eq_true,
    decide_eq_true_eq] at he
  exact he.2

/-- Counterexample to claim C4 as stated: a schedule entry with offset
`0` is *not* applied at arm time.  Arming with schedule `[(0, B)]` and
initial-valve selection `A` leaves the valve at `A` — the `(0, B)` entry
is neither applied immediately nor armed as a timer, so the `B`
transition never occurs. -/
theorem zero_offset_entry_never_applied :
    (startRecording ⟨false, "A", [], 0⟩ "A" [⟨some 0, "B"⟩] 30).1.currentValve = "A" ∧
    (startRecording ⟨false, "A", [], 0⟩ "A" [⟨some 0, "B"⟩] 30).1.currentValve ≠ "B" ∧
    (startRecording ⟨false, "A", [], 0⟩ "A" [⟨some 0, "B"⟩] 30).1.swapJobs = [] ∧
    (startRecording ⟨false, "A", [], 0⟩ "A" [⟨some 40, "B"⟩] 30).1.swapJobs = [] := by
  have hsched : getValveSchedule [⟨some 0, "B"⟩] = ([(0, "B")], []) := by decide
  have hsched2 : getValveSchedule [⟨some 40, "B"⟩] = ([(40, "B")], []) := by decide
  refine ⟨?_, ?_, ?_, ?_⟩
  · simp [startRecording, hsched]
  · simp [startRecording, hsched]
  · simp only [startRecording, Bool.false_eq_true, if_false, hsched]
    norm_num [effective_run_duration]
  · simp only [startRecording, Bool.false_eq_true, if_false, hsched2]
    norm_num [effective_run_duration]

/-- Claim C4 as amended: the valve state immediately after arming is the
separately selected initial valve — entries with `offset ≤ 0` (and
entries at or beyond the effective run duration) are silently discarded,
never applied; every armed entry has `0 < t <` effective duration and
fires at `t0 + t` and not before; cancelling (part of `stopRecording`)
clears all pending timers so an uncancelled transition never occurs.
Concretely, arming `[(0, A), (15, B)]` with initial valve `A` and a 30 s
run arms only `(15, B)`: the valve is `A` at `t0+14.9 s`, `B` at
`t0+15.1 s`, still `A` at `t0+5 s`, and cancelling leaves no timer. -/
theorem valve_arm_fire_cancel_semantics
    (st : DisplayState) (init : String) (rows : List SwapRow) (dur : ℚ)
    (h : st.recording = false) :
    ((startRecording st init rows dur).1.currentValve = init ∧
     ∀ e ∈ (startRecording st init rows dur).1.swapJobs,
       0 < e.1 ∧ e.1 < effective_run_duration dur) ∧
    (stopRecording (startRecording st init rows dur).1).swapJobs = [] ∧
    ((startRecording ⟨false, "A", [], 0⟩ "A" [⟨some 0, "A"⟩, ⟨some 15, "B"⟩] 30).1.swapJobs
        = [(15, "B")] ∧
     valveAt "A" [(15, "B")] (149/10) = "A" ∧
     valveAt "A" [(15, "B")] (151/10) = "B" ∧
     valveAt "A" [(15, "B")] 5 = "A" ∧
     (stopRecording (startRecording ⟨false, "A", [], 0⟩ "A"
        [⟨some 0, "A"⟩, ⟨some 15, "B"⟩] 30).1).swapJobs = []) := by
  have hsched : getValveSchedule [⟨some 0, "A"⟩, ⟨some 15, "B"⟩]
      = ([(0, "A"), (15, "B")], []) := by decide
  have hjobs : (startRecording ⟨false, "A", [], 0⟩ "A"
      [⟨some 0, "A"⟩, ⟨some 15, "B"⟩] 30).1.swapJobs = [(15, "B")] := by
    simp only [startRecording, Bool.false_eq_true, if_false, hsched]
    norm_num [effective_run_duration]
  refine ⟨⟨?_, swapJobs_bounds st init rows dur h⟩, ?_, hjobs, ?_, ?_, ?_, ?_⟩
  · simp [startRecording, h]
  · simp [stopRecording, startRecording, h]
  · simp only [valveAt, List.foldl_cons, List.foldl_nil]
    rw [if_neg (by norm_num [msDelay])]
  · simp only [valveAt, List.foldl_cons, List.foldl_nil]
    rw [if_pos (by norm_num [msDelay])]
  · simp only [valveAt, List.foldl_cons, List.foldl_nil]
    rw [if_neg (by norm_num [msDelay])]
  · simp [stopRecording, startRecording, Bool.false_eq_true]

/-- Witness for C4 (amended). -/
theorem valve_arm_fire_cancel_semantics_witness :
    (⟨false, "B", [], 10⟩ : DisplayState).recording = false ∧
    (((startRecording ⟨false, "B", [], 10⟩ "B" [] 30).1.currentValve = "B" ∧
      ∀ e ∈ (startRecording ⟨false, "B", [], 10⟩ "B" [] 30).1.swapJobs,
        0 < e.1 ∧ e.1 < effective_run_duration 30) ∧
     (stopRecording (startRecording ⟨false, "B", [], 10⟩ "B" [] 30).1).swapJobs = [] ∧
     ((startRecording ⟨false, "A", [], 0⟩ "A" [⟨some 0, "A"⟩, ⟨some 15, "B"⟩] 30).1.swapJobs
         = [(15, "B")] ∧
      valveAt "A" [(15, "B")] (149/10) = "A" ∧
      valveAt "A" [(15, "B")] (151/10) = "B" ∧
      valveAt "A" [(15, "B")] 5 = "A" ∧
      (stopRecording (startRecording ⟨false, "A", [], 0⟩ "A"
         [⟨some 0, "A"⟩, ⟨some 15, "B"⟩] 30).1).swapJobs = [])) :=
  ⟨rfl, valve_arm_fire_cancel_semantics ⟨false, "B", [], 10⟩ "B" [] 30 rfl⟩

/-! ## Configuration validation (`USB1408FS/Settings.py`) -/

/-- The configuration dataclass (`Settings`). -/
structure Settings where
  ai_board_number : ℤ
  dio_board_number : ℤ
  ai_channel : ℤ
  sampling_frequency : ℤ
  block_size : ℤ
  run_duration : ℚ
  valve_schedule : List (ℚ × String)
  auto_run_interval : ℤ
deriving DecidableEq

/-- The `for time, valve in self.valve_schedule` loop of
`Settings.validate`: the first offending entry raises. -/
def scheduleEntryError : List (ℚ × String) → Option String
  | [] => none
  | e :: rest =>
    if e.1 < 0 then some "valve time cannot be negative"
    else if ¬ (e.2 = "A" ∨ e.2 = "B") then some "valve must be A or B"
    else scheduleEntryError rest

/-- `Settings.validate`: raises `ValueError` on the first field outside
its sane range, in source order.  It is invoked once, at application
launch (`settings.validate()` at module import), and never by
`startRecording`. -/
def validate (s : Settings) : Except String Unit :=
  if ¬ (0 ≤ s.ai_board_number ∧ s.ai_board_number ≤ 15) then
    .error "AI board number must be between 0 and 15 (inclusive)"
  else if ¬ (0 ≤ s.dio_board_number ∧ s.dio_board_number ≤ 15) then
    .error "DIO board number must be between 0 and 15 (inclusive)"
  else if ¬ (0 ≤ s.ai_channel ∧ s.ai_channel ≤ 15) then
    .error "AI channel must be between 0 and 15 (inclusive)"
  else if s.sampling_frequency ≤ 0 then
    .error "sampling_frequency must be positive"
  else if s.block_size ≤ 0 then
    .error "block_size must be positive"
  else if s.run_duration ≤ 0 then
    .error "run_duration must be positive"
  else
    match scheduleEntryError s.valve_schedule with
    | some msg => .error msg
    | none =>
      if s.auto_run_interval ≤ 0 then .error "auto_run_interval must be positive"
      else .ok ()

/-- A schedule that passes `validate`'s loop has no negative offset. -/
theorem scheduleEntryError_none_nonneg :
    ∀ (l : List (ℚ × String)), scheduleEntryError l = none → ∀ e ∈ l, 0 ≤ e.1 := by
  intro l
  induction l with
  | nil => intro _ e he; cases he
  | cons x rest ih =>
    intro h e he
    unfold scheduleEntryError at h
    by_cases h1 : x.1 < 0
    · rw [if_pos h1] at h; cases h
    · rw [if_neg h1] at h
      by_cases h2 : ¬ (x.2 = "A" ∨ x.2 = "B")
      · rw [if_pos h2] at h; cases h
      · rw [if_neg h2] at h
        rcases List.mem_cons.mp he with he | he
        · rw [he]; exact not_lt.mp h1
        · exact ih h e he

/-- A configuration accepted by `validate` has a positive sampling rate,
a positive run duration, and no negative schedule offset. -/
theorem validate_ok_sane (s : Settings) (h : validate s = .ok ()) :
    0 < s.sampling_frequency ∧ 0 < s.run_duration ∧
    ∀ e ∈ s.valve_schedule, 0 ≤ e.1 := by
  unfold validate at h
  split_ifs at h with h1 h2 h3 h4 h5 h6 h7
  · cases heq : scheduleEntryError s.valve_schedule with
    | some msg => rw [heq] at h; cases h
    | none => rw [heq] at h; cases h
  · cases heq : scheduleEntryError s.valve_schedule with
    | some msg => rw [heq] at h; cases h
    | none =>
      rw [heq] at h
      exact ⟨not_le.mp h4, not_le.mp h6, scheduleEntryError_none_nonneg _ heq⟩

/-- Counterexample to claim C6 as stated: a configuration with a
negative valve-schedule offset is reported but the run still transitions
to Running, and a run with non-positive duration starts with no error at
all. -/
theorem invalid_config_still_transitions_to_running :
    (startRecording ⟨false, "A", [], 0⟩ "A" [⟨some (-1), "B"⟩] 30).1.recording = true ∧
    (startRecording ⟨false, "A", [], 0⟩ "A" [⟨some (-1), "B"⟩] 30).2 ≠ [] ∧
    (startRecording ⟨false, "A", [], 0⟩ "A" [] 0).1.recording = true ∧
    (startRecording ⟨false, "A", [], 0⟩ "A" [] 0).2 = [] := by
  have hsched : getValveSchedule [⟨some (-1), "B"⟩] = ([], ["Invalid valve schedule"]) := by
    decide
  refine ⟨?_, ?_, ?_, ?_⟩
  · simp [startRecording]
  · simp [startRecording, hsched]
  · simp [startRecording]
  · simp [startRecording, getValveSchedule, List.insertionSort]

/-- Claim C6 as amended: non-positive sampling rate or run duration and
negative schedule offsets are rejected (`ValueError`) only by
`Settings.validate`, which runs at application launch; `startRecording`
performs no such validation — it reports a negative offset through an
error dialog and drops that entry from the armed schedule, but the run
still transitions to Running. -/
theorem config_rejected_at_launch_not_at_start
    (s : Settings) (st : DisplayState) (init : String) (rows : List SwapRow)
    (dur t : ℚ) (v : String)
    (hrec : st.recording = false)
    (hbad : s.sampling_frequency ≤ 0 ∨ s.run_duration ≤ 0 ∨ ∃ e ∈ s.valve_schedule, e.1 < 0)
    (hrow : (⟨some t, v⟩ : SwapRow) ∈ rows) (ht : t < 0) :
    (∀ u : Unit, validate s ≠ .ok u) ∧
    (startRecording st init rows dur).1.recording = true ∧
    (startRecording st init rows dur).2 ≠ [] ∧
    (t, v) ∉ (startRecording st init rows dur).1.swapJobs := by
  refine ⟨?_, ?_, ?_, ?_⟩
  · intro u h
    obtain ⟨hfreq, hdur, hsched⟩ := validate_ok_sane s h
    rcases hbad with hb | hb | ⟨e, he, hneg⟩
    · exact absurd hfreq (not_lt.mpr hb)
    · exact absurd hdur (not_lt.mpr hb)
    · exact absurd (hsched e he) (not_le.mpr hneg)
  · simp [startRecording, hrec]
  · have h2 : (startRecording st init rows dur).2 = (getValveSchedule rows).2 := by
      simp [startRecording, hrec]
    rw [h2]
    exact getValveSchedule_errors_of_neg rows t v hrow ht
  · intro hmem
    have := (swapJobs_bounds st init rows dur hrec (t, v) hmem).1
    exact absurd this (not_lt.mpr (le_of_lt ht))

/-- Witness for C6 (amended). -/
theorem config_rejected_at_launch_not_at_start_witness :
    (⟨false, "A", [], 0⟩ : DisplayState).recording = false ∧
    ((⟨0, 0, 0, -1, 1000, 595, [], 600⟩ : Settings).sampling_frequency ≤ 0 ∨
     (⟨0, 0, 0, -1, 1000, 595, [], 600⟩ : Settings).run_duration ≤ 0 ∨
     ∃ e ∈ (⟨0, 0, 0, -1, 1000, 595, [], 600⟩ : Settings).valve_schedule, e.1 < 0) ∧
    (⟨some (-1), "B"⟩ : SwapRow) ∈ [(⟨some (-1), "B"⟩ : SwapRow)] ∧
    (-1 : ℚ) < 0 ∧
    ((∀ u : Unit, validate ⟨0, 0, 0, -1, 1000, 595, [], 600⟩ ≠ .ok u) ∧
     (startRecording ⟨false, "A", [], 0⟩ "A" [⟨some (-1), "B"⟩] 30).1.recording = true ∧
     (startRecording ⟨false, "A", [], 0⟩ "A" [⟨some (-1), "B"⟩] 30).2 ≠ [] ∧
     ((-1 : ℚ), "B") ∉ (startRecording ⟨false, "A", [], 0⟩ "A" [⟨some (-1), "B"⟩] 30).1.swapJobs) :=
  ⟨rfl, Or.inl (by decide), by decide, by decide,
   config_rejected_at_launch_not_at_start ⟨0, 0, 0, -1, 1000, 595, [], 600⟩
     ⟨false, "A", [], 0⟩ "A" [⟨some (-1), "B"⟩] 30 (-1) "B"
     rfl (Or.inl (by decide)) (by decide) (by decide)⟩

/-! ## Persisted run-file format

`DataAcquisition._write_file` writes `f"{t:.6f}\t{v:.6f}\n"` per sample
into `f"{initials.upper()}_{timestamp}.txt"` with the timestamp taken at
write time; `USB1608FS.DataAcquisition.writeData` writes
`f"{epoch:.4f}\t{v:.4f}\n"` into the filename fixed by
`Display.startRecording` at start time (no suffix).  Fixed-point
formatting of a float is modelled on ℚ by rounding `|q|·10^d` to the
nearest integer (the tie behaviour of binary doubles is below this
model's resolution) and printing exactly `d` fractional digits. -/

/-- The `d` fractional digit characters of `m < 10^d`, most significant
first, with leading zeros — what `%.df` prints after the point. -/
def fracChars (d m : ℕ) : List Char :=
  (List.range d).map (fun i => Nat.digitChar (m / 10 ^ (d - 1 - i) % 10))

/-- The fractional field of `f"{q:.df}"`. -/
def fracField (d : ℕ) (q : ℚ) : String :=
  String.mk (fracChars d ((⌊|q| * (10 : ℚ) ^ d + 1/2⌋).toNat % 10 ^ d))

/-- Fixed-point decimal formatting `f"{q:.df}"`: optional sign, integer
part, point, exactly `d` fractional digits. -/
def fmtFixed (d : ℕ) (q : ℚ) : String :=
  (if q < 0 then "-" else "")
    ++ Nat.repr ((⌊|q| * (10 : ℚ) ^ d + 1/2⌋).toNat / 10 ^ d) ++ "." ++ fracField d q

/-- One line of `DataAcquisition._write_file`: `f"{t:.6f}\t{v:.6f}\n"`. -/
def burstLine (p : Sample) : String :=
  fmtFixed 6 p.1 ++ "\t" ++ fmtFixed 6 p.2 ++ "\n"

/-- One line of `USB1608FS.DataAcquisition.writeData`:
`f"{epoch:.4f}\t{v:.4f}\n"`. -/
def engineLine (p : Sample) : String :=
  fmtFixed 4 p.1 ++ "\t" ++ fmtFixed 4 p.2 ++ "\n"

/-- Python `str.strip()` (ASCII whitespace trimming). -/
def pyStrip (s : String) : String :=
  String.mk (((s.data.dropWhile Char.isWhitespace).reverse.dropWhile Char.isWhitespace).reverse)

/-- Python `str.upper()`. -/
def pyUpper (s : String) : String :=
  String.mk (s.data.map Char.toUpper)

/-- `DataAcquisition._write_file` filename:
`f"{self.operatorInitials.upper()}_{self._get_timestamp()}.txt"`, the
`YYMMDD_HHMMSS` timestamp taken at write time (`operatorInitials` is
initialised to `"NULL"`). -/
def burstFilename (operatorInitials stampAtWrite : String) : String :=
  pyUpper operatorInitials ++ "_" ++ stampAtWrite ++ ".txt"

/-- The filename fixed by `Display.startRecording` for the threaded
engine: initials stripped, defaulted to `"NULL"`, upper-cased, then
`f"{initials}_{stamp}"` with the stamp taken at *start* time. -/
def engineFilename (initialsEntry stampAtStart : String) : String :=
  pyUpper (if pyStrip initialsEntry = "" then "NULL" else pyStrip initialsEntry)
    ++ "_" ++ stampAtStart

/-- The voltage column of a written line: the text between the tab and
the newline. -/
def voltField (line : String) : String :=
  String.mk ((line.data.dropLast.dropWhile (fun c => ¬ c = '\t')).drop 1)

/-- The fractional digits of a formatted number: the text after the
point. -/
def fracPart (s : String) : String :=
  String.mk ((s.data.dropWhile (fun c => ¬ c = '.')).drop 1)

/-- `Nat.digitChar` of a digit is a digit character. -/
theorem digitChar_isDigit (x : ℕ) (hx : x < 10) : (Nat.digitChar x).isDigit = true := by
  interval_cases x <;> decide

/-- `%.df` produces exactly `d` fractional digits. -/
theorem fracField_length (d : ℕ) (q : ℚ) : (fracField d q).length = d := by
  simp [fracField, fracChars, String.length]

/-- Every character of the fractional field is a digit. -/
theorem fracField_digits (d : ℕ) (q : ℚ) :
    ∀ c ∈ (fracField d q).data, c.isDigit = true := by
  intro c hc
  simp only [fracField, fracChars, String.mk] at hc
  simp only [List.mem_map, List.mem_range] at hc
  obtain ⟨i, _, hi⟩ := hc
  rw [← hi]
  exact digitChar_isDigit _ (Nat.mod_lt _ (by norm_num))

/-- Counterexample to claim C8 as stated: the burst-capture writer
formats the voltage with six fractional digits, not four, and the
threaded engine persists under the filename stamped at start time, not
at write time (stopping the engine at any later instant still writes
`AB_250101_120000`). -/
theorem persisted_voltage_has_six_fractional_digits :
    burstLine (0, 3/2) = "0.000000\t1.500000\n" ∧
    fracPart (voltField (burstLine (0, 3/2))) = "500000" ∧
    (fracPart (voltField (burstLine (0, 3/2)))).length = 6 ∧
    ¬ (fracPart (voltField (burstLine (0, 3/2)))).length = 4 ∧
    (stop true ⟨false, [(0, 1)], some (engineFilename "ab" "250101_120000"), []⟩).1.files
      = [⟨"AB_250101_120000", [(0, 1)]⟩] := by
  have e1 : fmtFixed 6 (0 : ℚ) = "0.000000" := by
    have h1 : (⌊|(0 : ℚ)| * (10 : ℚ) ^ 6 + 1/2⌋ : ℤ) = 0 := by
      rw [show |(0 : ℚ)| = 0 from abs_of_nonneg le_rfl]; norm_num
    simp only [fmtFixed, fracField, h1, if_neg (by norm_num : ¬ ((0 : ℚ) < 0))]
    decide
  have e2 : fmtFixed 6 (3/2 : ℚ) = "1.500000" := by
    have h1 : (⌊|(3/2 : ℚ)| * (10 : ℚ) ^ 6 + 1/2⌋ : ℤ) = 1500000 := by
      rw [show |(3/2 : ℚ)| = 3/2 from abs_of_nonneg (by norm_num)]; norm_num
    simp only [fmtFixed, fracField, h1, if_neg (by norm_num : ¬ ((3/2 : ℚ) < 0))]
    decide
  have hline : burstLine (0, 3/2) = "0.000000\t1.500000\n" := by
    show fmtFixed 6 (0 : ℚ) ++ "\t" ++ fmtFixed 6 (3/2 : ℚ) ++ "\n" = _
    rw [e1, e2]; decide
  have hfn : engineFilename "ab" "250101_120000" = "AB_250101_120000" := by decide
  refine ⟨hline, ?_, ?_, ?_, ?_⟩
  · rw [hline]; decide
  · rw [hline]; decide
  · rw [hline]; decide
  · rw [hfn]; decide

/-- Claim C8 as amended: both writers produce one `<time>TAB<voltage>NL`
line per sample; the time is written with a fixed 4 (engine) or 6
(burst) fractional digits and the voltage with the *same* precision as
the time — 4 in the engine writer but 6, not 4, in the burst writer.
The burst filename is the upper-cased initials (default `"NULL"`), an
underscore, a `YYMMDD_HHMMSS` stamp taken at write time, and `.txt`;
the engine filename has no suffix, defaults the stripped initials to
`"NULL"`, and carries the stamp fixed at start time — the engine's stop
persists under exactly that start-time name. -/
theorem run_file_line_format_and_naming
    (p : Sample) (q : ℚ) (initials stamp : String)
    (s : Engine) (fn : String)
    (hdata : s.data ≠ []) (hfn : s.filename = some fn) :
    (engineLine p = fmtFixed 4 p.1 ++ "\t" ++ fmtFixed 4 p.2 ++ "\n" ∧
     burstLine p = fmtFixed 6 p.1 ++ "\t" ++ fmtFixed 6 p.2 ++ "\n") ∧
    (fmtFixed 4 q = (if q < 0 then "-" else "")
        ++ Nat.repr ((⌊|q| * (10 : ℚ) ^ 4 + 1/2⌋).toNat / 10 ^ 4) ++ "." ++ fracField 4 q ∧
     (fracField 4 q).length = 4 ∧
     (fracField 6 q).length = 6 ∧
     (∀ c ∈ (fracField 4 q).data, c.isDigit = true) ∧
     (∀ c ∈ (fracField 6 q).data, c.isDigit = true)) ∧
    (burstFilename initials stamp = pyUpper initials ++ "_" ++ stamp ++ ".txt" ∧
     engineFilename "" stamp = "NULL" ++ "_" ++ stamp ∧
     (stop true s).1.files = s.files ++ [⟨fn, s.data⟩]) := by
  refine ⟨⟨rfl, rfl⟩,
    ⟨rfl, fracField_length 4 q, fracField_length 6 q, fracField_digits 4 q, fracField_digits 6 q⟩,
    ⟨rfl, ?_, ?_⟩⟩
  · have h : pyStrip "" = "" := by decide
    have h2 : pyUpper "NULL" = "NULL" := by decide
    rw [engineFilename, h, if_pos rfl, h2]
  · obtain ⟨r, d, fn', fl⟩ := s
    simp only at hdata hfn
    subst hfn
    simp [stop, writeData, hdata]

/-- Witness for C8 (amended). -/
theorem run_file_line_format_and_naming_witness :
    (⟨true, [(0, 1)], some "AB_250101_120000", []⟩ : Engine).data ≠ [] ∧
    (⟨true, [(0, 1)], some "AB_250101_120000", []⟩ : Engine).filename
      = some "AB_250101_120000" ∧
    ((engineLine (2, 3) = fmtFixed 4 ((2, 3) : Sample).1 ++ "\t"
        ++ fmtFixed 4 ((2, 3) : Sample).2 ++ "\n" ∧
      burstLine (2, 3) = fmtFixed 6 ((2, 3) : Sample).1 ++ "\t"
        ++ fmtFixed 6 ((2, 3) : Sample).2 ++ "\n") ∧
     (fmtFixed 4 (7/3 : ℚ) = (if (7/3 : ℚ) < 0 then "-" else "")
         ++ Nat.repr ((⌊|(7/3 : ℚ)| * (10 : ℚ) ^ 4 + 1/2⌋).toNat / 10 ^ 4) ++ "."
         ++ fracField 4 (7/3) ∧
      (fracField 4 (7/3 : ℚ)).length = 4 ∧
      (fracField 6 (7/3 : ℚ)).length = 6 ∧
      (∀ c ∈ (fracField 4 (7/3 : ℚ)).data, c.isDigit = true) ∧
      (∀ c ∈ (fracField 6 (7/3 : ℚ)).data, c.isDigit = true)) ∧
     (burstFilename "ab" "250101_120500" = pyUpper "ab" ++ "_" ++ "250101_120500" ++ ".txt" ∧
      engineFilename "" "250101_120500" = "NULL" ++ "_" ++ "250101_120500" ∧
      (stop true ⟨true, [(0, 1)], some "AB_250101_120000", []⟩).1.files
        = (⟨true, [(0, 1)], some "AB_250101_120000", []⟩ : Engine).files
          ++ [⟨"AB_250101_120000", [(0, 1)]⟩])) :=
  ⟨by decide, rfl,
   run_file_line_format_and_naming (2, 3) (7/3) "ab" "250101_120500"
     ⟨true, [(0, 1)], some "AB_250101_120000", []⟩ "AB_250101_120000"
     (by decide) rfl⟩

/-! ## Valve driver (`USB1608FS/Valves.py`)

The two-way valve is driven through AUXPORT digital lines: DIO3 is the
Position-A control line and DIO1 the Position-B control line. -/

/-- `ul.d_bit_out(board, AUXPORT, bit_num, state)`: the port bit map
after driving one bit. -/
def d_bit_out (port : ℕ → ℕ) (bit_num state : ℕ) : ℕ → ℕ :=
  fun b => if b = bit_num then state else port b

/-- `Valves._set_valve(a_state, b_state)`: drives the Position-A control
line (DIO3) to `a_state`, then the Position-B control line (DIO1) to
`b_state`; no effect when the hardware is unavailable. -/
def _set_valve (hardware_available : Bool) (a_state b_state : ℕ) (port : ℕ → ℕ) : ℕ → ℕ :=
  if hardware_available = false then port
  else d_bit_out (d_bit_out port 3 a_state) 1 b_state

/-- `Valves.set_valve_position_a`: without hardware prints
`"Simulating valve B open"`; with hardware calls
`_set_valve(a_state=0, b_state=1)` and prints
`"Valve set to Position B"`.  Returns the new port map and the message. -/
def set_valve_position_a (hardware_available : Bool) (port : ℕ → ℕ) : (ℕ → ℕ) × String :=
  if hardware_available = false then (port, "Simulating valve B open")
  else (_set_valve hardware_available 0 1 port, "Valve set to Position B")

/-- `Valves.set_valve_position_b`: without hardware prints
`"Simulating valve A open"`; with hardware calls
`_set_valve(a_state=1, b_state=0)` and prints
`"Valve set to Position A"`. -/
def set_valve_position_b (hardware_available : Bool) (port : ℕ → ℕ) : (ℕ → ℕ) × String :=
  if hardware_available = false then (port, "Simulating valve A open")
  else (_set_valve hardware_available 1 0 port, "Valve set to Position A")

/-- Claim C10: with hardware available, `set_valve_position_a` drives
line A (AUXPORT bit 3) low and line B (AUXPORT bit 1) high, while
`set_valve_position_b` drives line A high and line B low — each is the
mirror image of the other on the two control lines (no other bit is
touched), and each method's own log message names the opposite position,
the bodies being interchanged relative to the method names. -/
theorem valve_position_methods_interchanged (port : ℕ → ℕ) :
    (set_valve_position_a true port).1 3 = 0 ∧
    (set_valve_position_a true port).1 1 = 1 ∧
    (set_valve_position_b true port).1 3 = 1 ∧
    (set_valve_position_b true port).1 1 = 0 ∧
    (∀ b, ¬ b = 1 → ¬ b = 3 →
      (set_valve_position_a true port).1 b = port b ∧
      (set_valve_position_b true port).1 b = port b) ∧
    (set_valve_position_a true port).2 = "Valve set to Position B" ∧
    (set_valve_position_b true port).2 = "Valve set to Position A" := by
  refine ⟨rfl, rfl, rfl, rfl, ?_, rfl, rfl⟩
  intro b h1 h3
  constructor <;>
    simp [set_valve_position_a, set_valve_position_b, _set_valve, d_bit_out, h1, h3]

end ADA
